import Mathlib

/-!
Shallow embedding of the meme-leaderboard core of the repository.

Two classes implement the leaderboard:
* `src/meme_leaderboard.py` (`MemeLeaderboard` with `track_meme`, `_add_vote`,
  `_remove_vote`, `process_reaction`, `get_top_memes`, `get_user_stats`) —
  embedded below in namespace `MemeLB`;
* `src/tools/leaderboard.py` (`MemeLeaderboard` with `add_meme`, `update_vote`,
  `remove_vote`, `get_top_memes`, `get_user_stats`) — embedded below in
  namespace `ToolsLB`.

Python `dict`s preserve insertion order; they are embedded as association
lists with the exact operational behaviour of `d[k]`, `d.get(k, default)`,
`d[k] = v` (update in place, append when new), `del d[k]`, and `k in d`.
Counts are embedded as `Int` because the code manipulates Python integers
with unchecked `-= 1` (which can go below zero in `ToolsLB`).
File persistence (`save_db`/`load_db`) is I/O glue and is not modelled; the
operations below are the pure state transitions performed between loads and
saves.
-/

namespace MemeRepo

/-- Lookup in a Python dict embedded as an association list: value at the
first matching key (Python keys are unique, so "first" is "the"). -/
def dictGet? {β : Type} (k : String) : List (String × β) → Option β
  | [] => none
  | (k1, v) :: rest => if k1 = k then some v else dictGet? k rest

/-- Python `d[k] = v`: overwrite in place when the key is present (dicts keep
the original position of an updated key), append at the end when absent. -/
def dictInsert {β : Type} (k : String) (v : β) : List (String × β) → List (String × β)
  | [] => [(k, v)]
  | (k1, v1) :: rest => if k1 = k then (k1, v) :: rest else (k1, v1) :: dictInsert k v rest

/-- Python `del d[k]` (total here; every call site guards with a containment
check first, so the missing-key branch is never exercised by the code). -/
def dictErase {β : Type} (k : String) : List (String × β) → List (String × β)
  | [] => []
  | (k1, v1) :: rest => if k1 = k then rest else (k1, v1) :: dictErase k rest

/-- Python `k in d`. -/
def dictContains {β : Type} (k : String) (d : List (String × β)) : Bool :=
  (dictGet? k d).isSome

/-- One stored meme record.  `embed_data` is an opaque payload to the
leaderboard (stored, never interpreted), embedded as an opaque `String`;
`created_at` is an opaque timestamp embedded as `Nat`. -/
structure Meme where
  message_id : String
  author_id : String
  author_name : String
  embed_data : String
  upvotes : Int
  downvotes : Int
  created_at : Nat
  voters : List (String × Int)
deriving DecidableEq

/-- The `memes` mapping (message id → record), in insertion order. -/
abbrev Store := List (String × Meme)

namespace ToolsLB

/-- The record inserted by `add_meme` in `src/tools/leaderboard.py`
(lines 128–137): zero counts, empty voters. -/
def freshMeme (message_id author_id author_name embed_data : String) (now : Nat) : Meme :=
  { message_id := message_id, author_id := author_id, author_name := author_name,
    embed_data := embed_data, upvotes := 0, downvotes := 0, created_at := now, voters := [] }

/-- `MemeLeaderboard.add_meme` (src/tools/leaderboard.py, lines 122–141):
refuse when the id is already present, otherwise insert a fresh record. -/
def add_meme (s : Store) (message_id author_id author_name embed_data : String)
    (now : Nat) : Store × Bool :=
  if dictContains message_id s then (s, false)
  else (dictInsert message_id (freshMeme message_id author_id author_name embed_data now) s,
        true)

/-- `MemeLeaderboard.update_vote` (src/tools/leaderboard.py, lines 143–168):
subtract the previous vote of this user (if any, unclamped), then add the new
one and record it in `voters`. -/
def update_vote (s : Store) (message_id user_id : String) (is_upvote : Bool) : Store × Bool :=
  match dictGet? message_id s with
  | none => (s, false)
  | some meme =>
    let previous_vote := (dictGet? user_id meme.voters).getD 0
    let meme1 :=
      if previous_vote = 1 then { meme with upvotes := meme.upvotes - 1 }
      else if previous_vote = -1 then { meme with downvotes := meme.downvotes - 1 }
      else meme
    let meme2 :=
      if is_upvote then
        { meme1 with upvotes := meme1.upvotes + 1, voters := dictInsert user_id 1 meme1.voters }
      else
        { meme1 with downvotes := meme1.downvotes + 1,
                     voters := dictInsert user_id (-1) meme1.voters }
    (dictInsert message_id meme2 s, true)

/-- `MemeLeaderboard.remove_vote` (src/tools/leaderboard.py, lines 170–189):
no-op (returning false) on an unknown meme or a user with no recorded vote;
otherwise subtract the recorded vote (unclamped) and delete the voter entry. -/
def remove_vote (s : Store) (message_id user_id : String) : Store × Bool :=
  match dictGet? message_id s with
  | none => (s, false)
  | some meme =>
    match dictGet? user_id meme.voters with
    | none => (s, false)
    | some previous_vote =>
      let meme1 :=
        if previous_vote = 1 then { meme with upvotes := meme.upvotes - 1 }
        else if previous_vote = -1 then { meme with downvotes := meme.downvotes - 1 }
        else meme
      let meme2 := { meme1 with voters := dictErase user_id meme1.voters }
      (dictInsert message_id meme2 s, true)

/-- Comparator of the `sort_by == 'upvotes'` branch of `get_top_memes`:
Python `sorted(key=upvotes, reverse=True)` is the stable sort with this
"greater or tied" test. -/
def byUpvotesDesc (a b : Meme) : Bool := decide (b.upvotes ≤ a.upvotes)

/-- Comparator of the net-score branch of `get_top_memes`
(src/tools/leaderboard.py, line 202): net score alone, no tie-break. -/
def byNetDesc (a b : Meme) : Bool :=
  decide (b.upvotes - b.downvotes ≤ a.upvotes - a.downvotes)

/-- `MemeLeaderboard.get_top_memes` (src/tools/leaderboard.py, lines 191–206). -/
def get_top_memes (s : Store) (limit : Nat) (sort_by : String) : List Meme :=
  let sorted_memes :=
    if sort_by = "upvotes" then (s.map Prod.snd).mergeSort byUpvotesDesc
    else (s.map Prod.snd).mergeSort byNetDesc
  sorted_memes.take limit

/-- Return shape of `get_user_stats` in src/tools/leaderboard.py. -/
structure ToolsStats where
  user_id : String
  total_memes : Int
  total_upvotes : Int
  total_downvotes : Int
  net_score : Int
  top_memes : List Meme
deriving DecidableEq

/-- `MemeLeaderboard.get_user_stats` (src/tools/leaderboard.py, lines
208–233): sums over the author's memes, plus the top three of them by raw
upvotes (Python `list.sort(key=upvotes, reverse=True)` then `[:3]`). -/
def get_user_stats (s : Store) (user_id : String) : ToolsStats :=
  let user_memes := (s.map Prod.snd).filter (fun m => m.author_id = user_id)
  let total_upvotes := (user_memes.map Meme.upvotes).sum
  let total_downvotes := (user_memes.map Meme.downvotes).sum
  { user_id := user_id
    total_memes := (user_memes.length : Int)
    total_upvotes := total_upvotes
    total_downvotes := total_downvotes
    net_score := total_upvotes - total_downvotes
    top_memes := (user_memes.mergeSort byUpvotesDesc).take 3 }

end ToolsLB

namespace MemeLB

/-- `MemeLeaderboard.track_meme` (src/meme_leaderboard.py, lines 43–92):
unconditional dict assignment of a fresh zero-count record — an existing
record under the same id is overwritten. -/
def track_meme (s : Store) (message_id author_id author_name embed_data : String)
    (now : Nat) : Store :=
  dictInsert message_id
    { message_id := message_id, author_id := author_id, author_name := author_name,
      embed_data := embed_data, upvotes := 0, downvotes := 0, created_at := now,
      voters := [] } s

/-- `MemeLeaderboard._remove_vote` (src/meme_leaderboard.py, lines 153–163):
decrement the counter matching the recorded vote, clamped at zero with
`max(0, ...)`, then delete the voter entry; no-op when the user has no
recorded vote. -/
def remove_vote (meme : Meme) (user_id : String) : Meme :=
  match dictGet? user_id meme.voters with
  | none => meme
  | some vote =>
    let meme1 :=
      if vote = 1 then { meme with upvotes := max 0 (meme.upvotes - 1) }
      else if vote = -1 then { meme with downvotes := max 0 (meme.downvotes - 1) }
      else meme
    { meme1 with voters := dictErase user_id meme1.voters }

/-- `MemeLeaderboard._add_vote` (src/meme_leaderboard.py, lines 139–151):
remove any existing vote by this user, then add the new one. -/
def add_vote (meme : Meme) (user_id : String) (vote_value : Int) : Meme :=
  let meme1 := remove_vote meme user_id
  let meme2 :=
    if vote_value = 1 then { meme1 with upvotes := meme1.upvotes + 1 }
    else if vote_value = -1 then { meme1 with downvotes := meme1.downvotes + 1 }
    else meme1
  { meme2 with voters := dictInsert user_id vote_value meme2.voters }

/-- `MemeLeaderboard.process_reaction` (src/meme_leaderboard.py, lines
102–137): ignore bot users and untracked messages; on `added`, dispatch on
the emoji; on removal, act only when the emoji's polarity matches the
recorded vote. -/
def process_reaction (s : Store) (message_id user_id emoji : String)
    (added : Bool) (user_is_bot : Bool) : Store :=
  if user_is_bot then s
  else
    match dictGet? message_id s with
    | none => s
    | some meme =>
      if added then
        if emoji = "👍" then dictInsert message_id (add_vote meme user_id 1) s
        else if emoji = "👎" then dictInsert message_id (add_vote meme user_id (-1)) s
        else s
      else
        if emoji = "👍" ∧ dictGet? user_id meme.voters = some 1 then
          dictInsert message_id (remove_vote meme user_id) s
        else if emoji = "👎" ∧ dictGet? user_id meme.voters = some (-1) then
          dictInsert message_id (remove_vote meme user_id) s
        else s

/-- Boolean "less than or equal" on Python pairs of ints (tuple comparison
is lexicographic). -/
def lexLe (p q : Int × Int) : Bool :=
  decide (p.1 < q.1 ∨ (p.1 = q.1 ∧ p.2 ≤ q.2))

/-- Boolean strict lexicographic "less than" on Python pairs of ints. -/
def lexLt (p q : Int × Int) : Bool :=
  decide (p.1 < q.1 ∨ (p.1 = q.1 ∧ p.2 < q.2))

/-- The sort/comparison key `(upvotes - downvotes, upvotes)` used by
`get_top_memes` and `get_user_stats` in src/meme_leaderboard.py. -/
def netKey (m : Meme) : Int × Int := (m.upvotes - m.downvotes, m.upvotes)

/-- Comparator of `get_top_memes` (src/meme_leaderboard.py, line 172):
Python `sorted(key=netKey, reverse=True)` is the stable sort with this
"greater or tied" test. -/
def byNetUpDesc (a b : Meme) : Bool := lexLe (netKey b) (netKey a)

/-- `MemeLeaderboard.get_top_memes` (src/meme_leaderboard.py, lines 165–179). -/
def get_top_memes (s : Store) (limit : Nat) : List Meme :=
  ((s.map Prod.snd).mergeSort byNetUpDesc).take limit

/-- Return shape of `get_user_stats` in src/meme_leaderboard.py. -/
structure UserStats where
  memes_created : Int
  total_upvotes : Int
  total_downvotes : Int
  net_popularity : Int
  most_popular_meme : Option Meme
deriving DecidableEq

/-- Python `max(user_memes, key=netKey)` wrapped for the possibly-empty
case: the first meme whose key no later meme strictly exceeds (CPython `max`
replaces the current best only on a strictly greater key, so the earliest
maximal element wins). -/
def pyMax (key : Meme → Int × Int) : List Meme → Option Meme
  | [] => none
  | m :: rest => some (rest.foldl (fun best x => if lexLt (key best) (key x) then x else best) m)

/-- `MemeLeaderboard.get_user_stats` (src/meme_leaderboard.py, lines
181–225): one pass over the author's memes accumulating counts and sums,
then `max` by `(net, upvotes)` when the author has any meme. -/
def get_user_stats (s : Store) (user_id : String) : UserStats :=
  let user_memes := (s.map Prod.snd).filter (fun m => m.author_id = user_id)
  let total_upvotes := (user_memes.map Meme.upvotes).sum
  let total_downvotes := (user_memes.map Meme.downvotes).sum
  { memes_created := (user_memes.length : Int)
    total_upvotes := total_upvotes
    total_downvotes := total_downvotes
    net_popularity := total_upvotes - total_downvotes
    most_popular_meme := pyMax netKey user_memes }

end MemeLB

/-- Number of voters whose recorded vote is `v`. -/
def countVotes (v : Int) (voters : List (String × Int)) : Nat :=
  voters.countP (fun p => decide (p.2 = v))

/-- The cached aggregates of a record agree with its voter map. -/
def memeInv (m : Meme) : Prop :=
  m.upvotes = (countVotes 1 m.voters : Int) ∧ m.downvotes = (countVotes (-1) m.voters : Int)

/-- Every record of the store satisfies `memeInv`. -/
def storeInv (s : Store) : Prop := ∀ p ∈ s, memeInv p.2

instance (m : Meme) : Decidable (memeInv m) := by unfold memeInv; infer_instance

instance (s : Store) : Decidable (storeInv s) := by unfold storeInv; infer_instance

/-- One external mutation of the store, as delivered by the event source:
item creation, a reaction-added vote, or a reaction-removed unvote
(the operations of src/tools/leaderboard.py). -/
inductive Op where
  | add (message_id author_id author_name embed_data : String) (now : Nat)
  | vote (message_id user_id : String) (is_upvote : Bool)
  | unvote (message_id user_id : String)
deriving DecidableEq

/-- Apply one operation, discarding the returned status flag. -/
def applyOp (s : Store) : Op → Store
  | .add mid aid an ed now => (ToolsLB.add_meme s mid aid an ed now).1
  | .vote mid uid up => (ToolsLB.update_vote s mid uid up).1
  | .unvote mid uid => (ToolsLB.remove_vote s mid uid).1

/-- Run a sequence of operations from the empty (freshly created) store. -/
def runOps (ops : List Op) : Store := ops.foldl applyOp []

/-! ### Concrete stores used to instantiate the theorems -/

/-- A sample event sequence: one item, three reaction-added votes (u2 flips
from down to up), one reaction-removed unvote. -/
def demoOps : List Op :=
  [.add "m1" "alice" "Alice" "img" 0,
   .vote "m1" "u1" true,
   .vote "m1" "u2" false,
   .vote "m1" "u2" true,
   .unvote "m1" "u1"]

/-- The record `demoOps` produces for item `m1`. -/
def demoMeme : Meme :=
  { message_id := "m1", author_id := "alice", author_name := "Alice", embed_data := "img",
    upvotes := 1, downvotes := 0, created_at := 0, voters := [("u2", 1)] }

/-- A record in the inconsistent state the clamping language of the spec is
about: a recorded upvote while the cached counter is already zero. -/
def negMeme : Meme :=
  { message_id := "m", author_id := "x", author_name := "X", embed_data := "",
    upvotes := 0, downvotes := 0, created_at := 0, voters := [("u", 1)] }

/-- Store holding only `negMeme`. -/
def negStore : Store := [("m", negMeme)]

/-- Net score 0 with 3 upvotes, created first. -/
def memeA : Meme :=
  { message_id := "a", author_id := "ua", author_name := "A", embed_data := "",
    upvotes := 3, downvotes := 3, created_at := 0, voters := [] }

/-- Net score 0 with 5 upvotes, created second. -/
def memeB : Meme :=
  { message_id := "b", author_id := "ub", author_name := "B", embed_data := "",
    upvotes := 5, downvotes := 5, created_at := 1, voters := [] }

/-- Two items tied on net score but not on upvotes, in creation order. -/
def tieStore : Store := [("a", memeA), ("b", memeB)]

/-- More raw upvotes (2) but worse net score (-3). -/
def statMemeA : Meme :=
  { message_id := "a", author_id := "au", author_name := "AU", embed_data := "",
    upvotes := 2, downvotes := 5, created_at := 0, voters := [] }

/-- Fewer raw upvotes (1) but better net score (1). -/
def statMemeB : Meme :=
  { message_id := "b", author_id := "au", author_name := "AU", embed_data := "",
    upvotes := 1, downvotes := 0, created_at := 1, voters := [] }

/-- Two items by the same author separating "best by upvotes" from "best by
(net, upvotes)". -/
def statStore : Store := [("a", statMemeA), ("b", statMemeB)]

/-- A consistent record with one recorded upvote. -/
def votedMeme : Meme :=
  { message_id := "m", author_id := "x", author_name := "X", embed_data := "",
    upvotes := 1, downvotes := 0, created_at := 0, voters := [("u", 1)] }

/-- Store holding only `votedMeme`. -/
def voteStore : Store := [("m", votedMeme)]

/-! ### Dictionary algebra -/

theorem dictGet?_mem {β : Type} {k : String} {v : β} {d : List (String × β)}
    (h : dictGet? k d = some v) : (k, v) ∈ d := by
  induction d with
  | nil => simp [dictGet?] at h
  | cons p rest ih =>
    obtain ⟨k1, v1⟩ := p
    by_cases hk : k1 = k
    · subst hk
      simp [dictGet?] at h
      simp [h]
    · simp only [dictGet?, if_neg hk] at h
      exact List.mem_cons_of_mem _ (ih h)

theorem mem_dictInsert {β : Type} {k : String} {v : β} {p : String × β}
    {d : List (String × β)} (h : p ∈ dictInsert k v d) : p = (k, v) ∨ p ∈ d := by
  induction d with
  | nil => simp [dictInsert] at h; simp [h]
  | cons q rest ih =>
    obtain ⟨k1, v1⟩ := q
    by_cases hk : k1 = k
    · subst hk
      simp only [dictInsert, if_pos rfl] at h
      rcases List.mem_cons.mp h with h1 | h1
      · exact Or.inl h1
      · exact Or.inr (List.mem_cons_of_mem _ h1)
    · simp only [dictInsert, if_neg hk] at h
      rcases List.mem_cons.mp h with h1 | h1
      · exact Or.inr (List.mem_cons.mpr (Or.inl h1))
      · rcases ih h1 with h2 | h2
        · exact Or.inl h2
        · exact Or.inr (List.mem_cons_of_mem _ h2)

theorem dictGet?_dictInsert_self {β : Type} (k : String) (v : β)
    (d : List (String × β)) : dictGet? k (dictInsert k v d) = some v := by
  induction d with
  | nil => simp [dictInsert, dictGet?]
  | cons q rest ih =>
    obtain ⟨k1, v1⟩ := q
    by_cases hk : k1 = k
    · simp [dictInsert, dictGet?, hk]
    · simp [dictInsert, dictGet?, hk, ih]

theorem dictGet?_dictInsert_ne {β : Type} {k1 k : String} (hne : k1 ≠ k) (v : β)
    (d : List (String × β)) : dictGet? k1 (dictInsert k v d) = dictGet? k1 d := by
  induction d with
  | nil => simp [dictInsert, dictGet?, Ne.symm hne]
  | cons q rest ih =>
    obtain ⟨k2, v2⟩ := q
    by_cases hk : k2 = k
    · subst hk
      simp [dictInsert, dictGet?, Ne.symm hne]
    · simp [dictInsert, dictGet?, hk, ih]

theorem dictGet?_dictErase_ne {β : Type} {k1 k : String} (hne : k1 ≠ k)
    (d : List (String × β)) : dictGet? k1 (dictErase k d) = dictGet? k1 d := by
  induction d with
  | nil => simp [dictErase]
  | cons q rest ih =>
    obtain ⟨k2, v2⟩ := q
    by_cases hk : k2 = k
    · subst hk
      simp [dictErase, dictGet?, Ne.symm hne]
    · simp [dictErase, dictGet?, hk, ih]

theorem dictInsert_eq_self {β : Type} {k : String} {v : β} {d : List (String × β)}
    (h : dictGet? k d = some v) : dictInsert k v d = d := by
  induction d with
  | nil => simp [dictGet?] at h
  | cons q rest ih =>
    obtain ⟨k1, v1⟩ := q
    by_cases hk : k1 = k
    · subst hk
      simp [dictGet?] at h
      simp [dictInsert, h]
    · simp only [dictGet?, if_neg hk] at h
      simp [dictInsert, hk, ih h]

theorem dictInsert_eq_append {β : Type} {k : String} {d : List (String × β)}
    (h : dictGet? k d = none) (v : β) : dictInsert k v d = d ++ [(k, v)] := by
  induction d with
  | nil => simp [dictInsert]
  | cons q rest ih =>
    obtain ⟨k1, v1⟩ := q
    by_cases hk : k1 = k
    · simp [dictGet?, hk] at h
    · simp only [dictGet?, if_neg hk] at h
      simp [dictInsert, hk, ih h]

theorem dictErase_eq_self {β : Type} {k : String} {d : List (String × β)}
    (h : dictGet? k d = none) : dictErase k d = d := by
  induction d with
  | nil => simp [dictErase]
  | cons q rest ih =>
    obtain ⟨k1, v1⟩ := q
    by_cases hk : k1 = k
    · simp [dictGet?, hk] at h
    · simp only [dictGet?, if_neg hk] at h
      simp [dictErase, hk, ih h]

theorem countVotes_cons (v x : Int) (k : String) (rest : List (String × Int)) :
    countVotes v ((k, x) :: rest) = countVotes v rest + (if x = v then 1 else 0) := by
  simp [countVotes, List.countP_cons]

theorem countVotes_dictInsert_some {k : String} {w : Int} {d : List (String × Int)}
    (h : dictGet? k d = some w) (v x : Int) :
    countVotes v (dictInsert k x d) + (if w = v then 1 else 0) =
      countVotes v d + (if x = v then 1 else 0) := by
  induction d with
  | nil => simp [dictGet?] at h
  | cons q rest ih =>
    obtain ⟨k1, v1⟩ := q
    by_cases hk : k1 = k
    · subst hk
      simp [dictGet?] at h
      subst h
      simp [dictInsert, countVotes_cons]
      omega
    · simp only [dictGet?, if_neg hk] at h
      simp only [dictInsert, if_neg hk, countVotes_cons]
      have := ih h
      omega

theorem countVotes_dictInsert_none {k : String} {d : List (String × Int)}
    (h : dictGet? k d = none) (v x : Int) :
    countVotes v (dictInsert k x d) = countVotes v d + (if x = v then 1 else 0) := by
  rw [dictInsert_eq_append h]
  induction d with
  | nil => simp [countVotes, List.countP_cons]
  | cons q rest ih =>
    obtain ⟨k1, v1⟩ := q
    by_cases hk : k1 = k
    · simp [dictGet?, hk] at h
    · simp only [dictGet?, if_neg hk] at h
      simp only [List.cons_append, countVotes_cons]
      have := ih h
      omega

theorem countVotes_dictErase_some {k : String} {w : Int} {d : List (String × Int)}
    (h : dictGet? k d = some w) (v : Int) :
    countVotes v (dictErase k d) + (if w = v then 1 else 0) = countVotes v d := by
  induction d with
  | nil => simp [dictGet?] at h
  | cons q rest ih =>
    obtain ⟨k1, v1⟩ := q
    by_cases hk : k1 = k
    · subst hk
      simp [dictGet?] at h
      subst h
      simp [dictErase, countVotes_cons]
    · simp only [dictGet?, if_neg hk] at h
      simp only [dictErase, if_neg hk, countVotes_cons]
      have := ih h
      omega

theorem countVotes_pos {k : String} {v : Int} {d : List (String × Int)}
    (h : dictGet? k d = some v) : 1 ≤ countVotes v d := by
  have hm : (k, v) ∈ d := dictGet?_mem h
  have : 0 < countVotes v d := by
    apply List.countP_pos_iff.mpr
    exact ⟨(k, v), hm, by simp⟩
  omega

/-! ### Characterizations of the operations -/

theorem add_meme_of_present {s : Store} {mid : String}
    (h : dictContains mid s = true) (aid an ed : String) (now : Nat) :
    ToolsLB.add_meme s mid aid an ed now = (s, false) := by
  simp [ToolsLB.add_meme, h]

theorem add_meme_of_absent {s : Store} {mid : String}
    (h : dictGet? mid s = none) (aid an ed : String) (now : Nat) :
    ToolsLB.add_meme s mid aid an ed now =
      (s ++ [(mid, ToolsLB.freshMeme mid aid an ed now)], true) := by
  have hc : dictContains mid s = false := by simp [dictContains, h]
  simp [ToolsLB.add_meme, hc, dictInsert_eq_append h]

theorem update_vote_of_absent {s : Store} {mid : String}
    (h : dictGet? mid s = none) (uid : String) (b : Bool) :
    ToolsLB.update_vote s mid uid b = (s, false) := by
  unfold ToolsLB.update_vote
  rw [h]

theorem remove_vote_of_absent {s : Store} {mid : String}
    (h : dictGet? mid s = none) (uid : String) :
    ToolsLB.remove_vote s mid uid = (s, false) := by
  unfold ToolsLB.remove_vote
  rw [h]

theorem remove_vote_of_no_vote {s : Store} {mid : String} {meme : Meme}
    (h : dictGet? mid s = some meme) {uid : String}
    (hv : dictGet? uid meme.voters = none) :
    ToolsLB.remove_vote s mid uid = (s, false) := by
  unfold ToolsLB.remove_vote
  simp only [h, hv]

theorem update_vote_of_present {s : Store} {mid : String} {meme : Meme}
    (h : dictGet? mid s = some meme) (uid : String) (b : Bool) :
    ToolsLB.update_vote s mid uid b =
      (dictInsert mid
        { meme with
          upvotes := meme.upvotes -
            (if (dictGet? uid meme.voters).getD 0 = 1 then 1 else 0) +
            (if b then 1 else 0)
          downvotes := meme.downvotes -
            (if (dictGet? uid meme.voters).getD 0 = -1 then 1 else 0) +
            (if b then 0 else 1)
          voters := dictInsert uid (if b then 1 else -1) meme.voters } s, true) := by
  unfold ToolsLB.update_vote
  rw [h]
  by_cases h1 : (dictGet? uid meme.voters).getD 0 = 1 <;>
    by_cases h2 : (dictGet? uid meme.voters).getD 0 = -1 <;>
    cases b <;> simp [h1, h2]

theorem remove_vote_of_vote {s : Store} {mid : String} {meme : Meme}
    (h : dictGet? mid s = some meme) {uid : String} {w : Int}
    (hv : dictGet? uid meme.voters = some w) :
    ToolsLB.remove_vote s mid uid =
      (dictInsert mid
        { meme with
          upvotes := meme.upvotes - (if w = 1 then 1 else 0)
          downvotes := meme.downvotes - (if w = -1 then 1 else 0)
          voters := dictErase uid meme.voters } s, true) := by
  unfold ToolsLB.remove_vote
  simp only [h, hv]
  by_cases h1 : w = 1 <;> by_cases h2 : w = -1 <;> simp [h1, h2]

theorem memeLB_remove_vote_of_no_vote {meme : Meme} {uid : String}
    (hv : dictGet? uid meme.voters = none) :
    MemeLB.remove_vote meme uid = meme := by
  unfold MemeLB.remove_vote
  rw [hv]

theorem memeLB_remove_vote_of_vote {meme : Meme} {uid : String} {w : Int}
    (hv : dictGet? uid meme.voters = some w) :
    MemeLB.remove_vote meme uid =
      { meme with
        upvotes := if w = 1 then max 0 (meme.upvotes - 1) else meme.upvotes
        downvotes := if w = -1 then max 0 (meme.downvotes - 1) else meme.downvotes
        voters := dictErase uid meme.voters } := by
  unfold MemeLB.remove_vote
  rw [hv]
  by_cases h1 : w = 1 <;> by_cases h2 : w = -1 <;> simp [h1, h2]

theorem memeLB_add_vote_eq (meme : Meme) (uid : String) (v : Int) :
    MemeLB.add_vote meme uid v =
      { MemeLB.remove_vote meme uid with
        upvotes := (MemeLB.remove_vote meme uid).upvotes + (if v = 1 then 1 else 0)
        downvotes := (MemeLB.remove_vote meme uid).downvotes + (if v = -1 then 1 else 0)
        voters := dictInsert uid v (MemeLB.remove_vote meme uid).voters } := by
  unfold MemeLB.add_vote
  by_cases h1 : v = 1 <;> by_cases h2 : v = -1 <;> simp [h1, h2]

/-! ### Lexicographic comparison and stable sorting -/

theorem lexLe_refl (p : Int × Int) : MemeLB.lexLe p p = true := by
  unfold MemeLB.lexLe
  simp only [decide_eq_true_eq]
  exact Or.inr ⟨trivial, le_rfl⟩

theorem lexLe_trans {p q r : Int × Int} (h1 : MemeLB.lexLe p q = true)
    (h2 : MemeLB.lexLe q r = true) : MemeLB.lexLe p r = true := by
  unfold MemeLB.lexLe at *
  simp only [decide_eq_true_eq] at *
  omega

theorem lexLe_total (p q : Int × Int) :
    (MemeLB.lexLe p q || MemeLB.lexLe q p) = true := by
  unfold MemeLB.lexLe
  simp only [Bool.or_eq_true, decide_eq_true_eq]
  omega

theorem lexLe_of_lexLt {p q : Int × Int} (h : MemeLB.lexLt p q = true) :
    MemeLB.lexLe p q = true := by
  unfold MemeLB.lexLt at h
  unfold MemeLB.lexLe
  simp only [decide_eq_true_eq] at *
  omega

theorem lexLe_of_not_lexLt {p q : Int × Int} (h : MemeLB.lexLt p q = false) :
    MemeLB.lexLe q p = true := by
  unfold MemeLB.lexLt at h
  unfold MemeLB.lexLe
  simp only [decide_eq_false_iff_not] at h
  simp only [decide_eq_true_eq]
  omega

theorem byUpvotesDesc_trans (a b c : Meme) (h1 : ToolsLB.byUpvotesDesc a b = true)
    (h2 : ToolsLB.byUpvotesDesc b c = true) : ToolsLB.byUpvotesDesc a c = true := by
  simp [ToolsLB.byUpvotesDesc] at *
  omega

theorem byUpvotesDesc_total (a b : Meme) :
    (ToolsLB.byUpvotesDesc a b || ToolsLB.byUpvotesDesc b a) = true := by
  simp [ToolsLB.byUpvotesDesc]
  omega

theorem byNetDesc_trans (a b c : Meme) (h1 : ToolsLB.byNetDesc a b = true)
    (h2 : ToolsLB.byNetDesc b c = true) : ToolsLB.byNetDesc a c = true := by
  simp [ToolsLB.byNetDesc] at *
  omega

theorem byNetDesc_total (a b : Meme) :
    (ToolsLB.byNetDesc a b || ToolsLB.byNetDesc b a) = true := by
  simp [ToolsLB.byNetDesc]
  omega

theorem byNetUpDesc_trans (a b c : Meme) (h1 : MemeLB.byNetUpDesc a b = true)
    (h2 : MemeLB.byNetUpDesc b c = true) : MemeLB.byNetUpDesc a c = true :=
  lexLe_trans h2 h1

theorem byNetUpDesc_total (a b : Meme) :
    (MemeLB.byNetUpDesc a b || MemeLB.byNetUpDesc b a) = true := by
  have := lexLe_total (MemeLB.netKey b) (MemeLB.netKey a)
  unfold MemeLB.byNetUpDesc
  rcases Bool.or_eq_true_iff.mp this with h | h <;> simp [h]

/-- Stability of `mergeSort`: the elements satisfying a predicate on which
the comparator is reflexive (a "tied class") appear in the sorted output in
exactly their original order. -/
theorem mergeSort_filter_stable {α : Type} {le : α → α → Bool}
    (htrans : ∀ a b c : α, le a b = true → le b c = true → le a c = true)
    (htotal : ∀ a b : α, (le a b || le b a) = true)
    (p : α → Bool) (hp : ∀ a b : α, p a = true → p b = true → le a b = true)
    (l : List α) : (l.mergeSort le).filter p = l.filter p := by
  have hpw : (l.filter p).Pairwise (fun a b => le a b = true) := by
    apply List.pairwise_of_forall_mem_list
    intro a ha b hb
    exact hp a b (List.of_mem_filter ha) (List.of_mem_filter hb)
  have hsub : (l.filter p).Sublist (l.mergeSort le) :=
    List.sublist_mergeSort htrans htotal hpw (List.filter_sublist l)
  have he : (l.filter p).filter p = l.filter p :=
    List.filter_eq_self.mpr fun a ha => List.of_mem_filter ha
  have hsub2 : (l.filter p).Sublist ((l.mergeSort le).filter p) := by
    have := List.Sublist.filter p hsub
    rwa [he] at this
  have hlen : ((l.mergeSort le).filter p).length = (l.filter p).length :=
    ((l.mergeSort_perm le).filter p).length_eq
  exact (hsub2.eq_of_length hlen.symm).symm

theorem pyMax_foldl_mem (key : Meme → Int × Int) (l : List Meme) (a : Meme) :
    l.foldl (fun best x => if MemeLB.lexLt (key best) (key x) then x else best) a ∈ a :: l := by
  induction l generalizing a with
  | nil => simp
  | cons x rest ih =>
    simp only [List.foldl_cons]
    by_cases hx : MemeLB.lexLt (key a) (key x) = true
    · simp only [if_pos hx]
      rcases List.mem_cons.mp (ih x) with h | h
      · simp [h]
      · simp [List.mem_cons, h]
    · simp only [if_neg hx]
      rcases List.mem_cons.mp (ih a) with h | h
      · simp [h]
      · simp [List.mem_cons, h]

theorem pyMax_foldl_maximal (key : Meme → Int × Int) (l : List Meme) (a : Meme) :
    MemeLB.lexLe (key a)
        (key (l.foldl (fun best x => if MemeLB.lexLt (key best) (key x) then x else best) a))
      = true ∧
    ∀ m ∈ l,
      MemeLB.lexLe (key m)
          (key (l.foldl (fun best x => if MemeLB.lexLt (key best) (key x) then x else best) a))
        = true := by
  induction l generalizing a with
  | nil => exact ⟨lexLe_refl _, by simp⟩
  | cons x rest ih =>
    simp only [List.foldl_cons]
    by_cases hx : MemeLB.lexLt (key a) (key x) = true
    · simp only [if_pos hx]
      obtain ⟨h1, h2⟩ := ih x
      refine ⟨lexLe_trans (lexLe_of_lexLt hx) h1, ?_⟩
      intro m hm
      rcases List.mem_cons.mp hm with rfl | hm
      · exact h1
      · exact h2 m hm
    · simp only [if_neg hx]
      obtain ⟨h1, h2⟩ := ih a
      have hx' : MemeLB.lexLt (key a) (key x) = false := by simpa using hx
      refine ⟨h1, ?_⟩
      intro m hm
      rcases List.mem_cons.mp hm with rfl | hm
      · exact lexLe_trans (lexLe_of_not_lexLt hx') h1
      · exact h2 m hm

theorem pyMax_spec {key : Meme → Int × Int} {l : List Meme} {b : Meme}
    (h : MemeLB.pyMax key l = some b) :
    b ∈ l ∧ ∀ m ∈ l, MemeLB.lexLe (key m) (key b) = true := by
  cases l with
  | nil => simp [MemeLB.pyMax] at h
  | cons x rest =>
    simp only [MemeLB.pyMax, Option.some.injEq] at h
    subst h
    refine ⟨pyMax_foldl_mem key rest x, ?_⟩
    intro m hm
    obtain ⟨h1, h2⟩ := pyMax_foldl_maximal key rest x
    rcases List.mem_cons.mp hm with rfl | hm
    · exact h1
    · exact h2 m hm

theorem pyMax_ne_nil {key : Meme → Int × Int} {l : List Meme} (h : l ≠ []) :
    ∃ b, MemeLB.pyMax key l = some b := by
  cases l with
  | nil => exact absurd rfl h
  | cons x rest => exact ⟨_, rfl⟩

/-! ### Preservation of the count invariant by the ToolsLB operations -/

theorem storeInv_add_meme (s : Store) (mid aid an ed : String) (now : Nat)
    (h : storeInv s) : storeInv (ToolsLB.add_meme s mid aid an ed now).1 := by
  cases hget : dictGet? mid s with
  | some m =>
    have hc : dictContains mid s = true := by simp [dictContains, hget]
    rw [add_meme_of_present hc]
    exact h
  | none =>
    rw [add_meme_of_absent hget]
    intro p hp
    rcases List.mem_append.mp hp with h1 | h1
    · exact h p h1
    · simp only [List.mem_singleton] at h1
      subst h1
      simp [memeInv, ToolsLB.freshMeme, countVotes]

theorem storeInv_update_vote (s : Store) (mid uid : String) (b : Bool)
    (h : storeInv s) : storeInv (ToolsLB.update_vote s mid uid b).1 := by
  cases hget : dictGet? mid s with
  | none =>
    rw [update_vote_of_absent hget]
    exact h
  | some meme =>
    rw [update_vote_of_present hget]
    intro p hp
    rcases mem_dictInsert hp with rfl | h1
    · obtain ⟨hu, hd⟩ := h _ (dictGet?_mem hget)
      simp only [memeInv] at hu hd ⊢
      cases hv : dictGet? uid meme.voters with
      | none =>
        have e1 := countVotes_dictInsert_none hv 1 (if b then 1 else -1)
        have e2 := countVotes_dictInsert_none hv (-1) (if b then 1 else -1)
        cases b <;> simp_all
      | some w =>
        have e1 := countVotes_dictInsert_some hv 1 (if b then 1 else -1)
        have e2 := countVotes_dictInsert_some hv (-1) (if b then 1 else -1)
        by_cases hw1 : w = 1 <;> by_cases hw2 : w = -1 <;>
          cases b <;> simp_all <;> omega
    · exact h p h1

theorem storeInv_remove_vote (s : Store) (mid uid : String)
    (h : storeInv s) : storeInv (ToolsLB.remove_vote s mid uid).1 := by
  cases hget : dictGet? mid s with
  | none =>
    rw [remove_vote_of_absent hget]
    exact h
  | some meme =>
    cases hv : dictGet? uid meme.voters with
    | none =>
      rw [remove_vote_of_no_vote hget hv]
      exact h
    | some w =>
      rw [remove_vote_of_vote hget hv]
      intro p hp
      rcases mem_dictInsert hp with rfl | h1
      · obtain ⟨hu, hd⟩ := h _ (dictGet?_mem hget)
        simp only [memeInv] at hu hd ⊢
        have e1 := countVotes_dictErase_some hv 1
        have e2 := countVotes_dictErase_some hv (-1)
        by_cases hw1 : w = 1 <;> by_cases hw2 : w = -1 <;> simp_all <;> omega
      · exact h p h1

theorem storeInv_applyOp (s : Store) (op : Op) (h : storeInv s) :
    storeInv (applyOp s op) := by
  cases op with
  | add mid aid an ed now => exact storeInv_add_meme s mid aid an ed now h
  | vote mid uid b => exact storeInv_update_vote s mid uid b h
  | unvote mid uid => exact storeInv_remove_vote s mid uid h

theorem storeInv_foldl (ops : List Op) :
    ∀ s : Store, storeInv s → storeInv (ops.foldl applyOp s) := by
  induction ops with
  | nil => intro s hs; exact hs
  | cons op rest ih =>
    intro s hs
    exact ih _ (storeInv_applyOp s op hs)

theorem storeInv_runOps (ops : List Op) : storeInv (runOps ops) := by
  apply storeInv_foldl
  intro p hp
  simp at hp

/-- C1: for every item and every sequence of add-item, apply-vote and
remove-vote operations starting from a freshly created store, the cached
aggregates of every stored record satisfy `upvotes` = number of voters with
recorded vote +1 and `downvotes` = number of voters with recorded vote -1
after every operation (every prefix of an event sequence is itself a
sequence, so this covers every intermediate state). -/
theorem vote_counts_never_drift (ops : List Op) (k : String) (m : Meme)
    (h : (k, m) ∈ runOps ops) :
    m.upvotes = (countVotes 1 m.voters : Int) ∧
      m.downvotes = (countVotes (-1) m.voters : Int) :=
  storeInv_runOps ops (k, m) h

/-- Witness instantiating C1 on the concrete event sequence `demoOps`. -/
theorem vote_counts_never_drift_witness :
    ("m1", demoMeme) ∈ runOps demoOps ∧
      (demoMeme.upvotes = (countVotes 1 demoMeme.voters : Int) ∧
        demoMeme.downvotes = (countVotes (-1) demoMeme.voters : Int)) :=
  ⟨by decide, vote_counts_never_drift demoOps "m1" demoMeme (by decide)⟩

/-- C7: on an item identifier not present in the store, `update_vote` and
`remove_vote` are no-ops: they return false and leave the entire store
(all items, counts and voter maps) unchanged; being total functions they
raise nothing. -/
theorem unknown_item_vote_noop (s : Store) (mid uid : String) (b : Bool)
    (h : dictGet? mid s = none) :
    ToolsLB.update_vote s mid uid b = (s, false) ∧
      ToolsLB.remove_vote s mid uid = (s, false) :=
  ⟨update_vote_of_absent h uid b, remove_vote_of_absent h uid⟩

/-- Witness instantiating C7 on `negStore` and the untracked id `zz`. -/
theorem unknown_item_vote_noop_witness :
    dictGet? "zz" negStore = none ∧
      (ToolsLB.update_vote negStore "zz" "u" true = (negStore, false) ∧
        ToolsLB.remove_vote negStore "zz" "u" = (negStore, false)) :=
  ⟨by decide, unknown_item_vote_noop negStore "zz" "u" true (by decide)⟩

/-- C3: `add_meme` on a present identifier returns false and leaves the
whole store (hence the existing record, its counts and voters) unchanged;
on an absent identifier it returns true and appends a new item with zero
counts and an empty voter map. -/
theorem add_item_duplicate_safe (s : Store) (mid aid an ed : String) (now : Nat) :
    (dictContains mid s = true → ToolsLB.add_meme s mid aid an ed now = (s, false)) ∧
      (dictGet? mid s = none →
        ToolsLB.add_meme s mid aid an ed now =
          (s ++ [(mid, { message_id := mid, author_id := aid, author_name := an,
                         embed_data := ed, upvotes := 0, downvotes := 0,
                         created_at := now, voters := [] })], true)) :=
  ⟨fun h => add_meme_of_present h aid an ed now,
   fun h => add_meme_of_absent h aid an ed now⟩

/-- Witness instantiating both halves of C3 on `negStore`. -/
theorem add_item_duplicate_safe_witness :
    (dictContains "m" negStore = true ∧
      ToolsLB.add_meme negStore "m" "a" "A" "e" 7 = (negStore, false)) ∧
      (dictGet? "m2" negStore = none ∧
        ToolsLB.add_meme negStore "m2" "a" "A" "e" 7 =
          (negStore ++ [("m2", { message_id := "m2", author_id := "a", author_name := "A",
                                 embed_data := "e", upvotes := 0, downvotes := 0,
                                 created_at := 7, voters := [] })], true)) :=
  ⟨⟨by decide, (add_item_duplicate_safe negStore "m" "a" "A" "e" 7).1 (by decide)⟩,
   ⟨by decide, (add_item_duplicate_safe negStore "m2" "a" "A" "e" 7).2 (by decide)⟩⟩

/-- C9: `track_meme` on an identifier the store already holds replaces the
stored record with a fresh one — zero counts, empty voter map, the new
author data — discarding all previously recorded votes. -/
theorem track_meme_overwrites (s : Store) (mid : String) (m : Meme)
    (_hm : dictGet? mid s = some m) (aid an ed : String) (now : Nat) :
    dictGet? mid (MemeLB.track_meme s mid aid an ed now) =
      some { message_id := mid, author_id := aid, author_name := an, embed_data := ed,
             upvotes := 0, downvotes := 0, created_at := now, voters := [] } := by
  unfold MemeLB.track_meme
  exact dictGet?_dictInsert_self mid _ s

/-- Witness instantiating C9 on `negStore`, whose item `m` has a voter. -/
theorem track_meme_overwrites_witness :
    dictGet? "m" negStore = some negMeme ∧
      dictGet? "m" (MemeLB.track_meme negStore "m" "a2" "A2" "e2" 9) =
        some { message_id := "m", author_id := "a2", author_name := "A2", embed_data := "e2",
               upvotes := 0, downvotes := 0, created_at := 9, voters := [] } :=
  ⟨by decide, track_meme_overwrites negStore "m" negMeme (by decide) "a2" "A2" "e2" 9⟩

/-- C5: for a tracked item and a voter with no prior vote, `update_vote` up
then `update_vote` down leaves the item's upvotes at their value before the
first call and its downvotes exactly one greater: the polarity switch is a
replace, not an add that forgets the old vote. -/
theorem vote_switch_transfers (s : Store) (mid uid : String) (m : Meme)
    (hm : dictGet? mid s = some m) (hv : dictGet? uid m.voters = none) :
    ∃ m2 : Meme,
      dictGet? mid
          (ToolsLB.update_vote (ToolsLB.update_vote s mid uid true).1 mid uid false).1 =
        some m2 ∧
      m2.upvotes = m.upvotes ∧ m2.downvotes = m.downvotes + 1 := by
  rw [update_vote_of_present hm]
  simp only
  rw [update_vote_of_present (dictGet?_dictInsert_self mid _ s)]
  simp only
  refine ⟨_, dictGet?_dictInsert_self mid _ _, ?_, ?_⟩ <;>
    simp [hv, dictGet?_dictInsert_self]

/-- Witness instantiating C5 on `negStore` (voter `u2` has no vote there). -/
theorem vote_switch_transfers_witness :
    dictGet? "m" negStore = some negMeme ∧ dictGet? "u2" negMeme.voters = none ∧
      ∃ m2 : Meme,
        dictGet? "m"
            (ToolsLB.update_vote (ToolsLB.update_vote negStore "m" "u2" true).1
              "m" "u2" false).1 = some m2 ∧
        m2.upvotes = negMeme.upvotes ∧ m2.downvotes = negMeme.downvotes + 1 :=
  ⟨by decide, by decide,
   vote_switch_transfers negStore "m" "u2" negMeme (by decide) (by decide)⟩

/-- C4: re-applying a vote of the same polarity as the voter's recorded vote
is idempotent in final state.  For `update_vote` (src/tools/leaderboard.py)
the resulting store is literally the old one; for `_add_vote`
(src/meme_leaderboard.py) the counts are unchanged and the voter map is
unchanged as a map, for every record whose cached counts agree with its
voter map (the data model's invariant, maintained by every operation). -/
theorem same_polarity_vote_idempotent :
    (∀ (s : Store) (mid uid : String) (b : Bool) (m : Meme),
      dictGet? mid s = some m →
      dictGet? uid m.voters = some (if b then 1 else -1) →
      (ToolsLB.update_vote s mid uid b).1 = s) ∧
    (∀ (m : Meme) (uid : String) (v : Int),
      memeInv m → dictGet? uid m.voters = some v → (v = 1 ∨ v = -1) →
      (MemeLB.add_vote m uid v).upvotes = m.upvotes ∧
      (MemeLB.add_vote m uid v).downvotes = m.downvotes ∧
      ∀ w : String, dictGet? w (MemeLB.add_vote m uid v).voters = dictGet? w m.voters) := by
  constructor
  · intro s mid uid b m hm hv
    rw [update_vote_of_present hm]
    simp only
    have hx : dictInsert uid (if b then 1 else -1) m.voters = m.voters :=
      dictInsert_eq_self hv
    have hm2 :
        ({ m with
            upvotes := m.upvotes -
              (if (dictGet? uid m.voters).getD 0 = 1 then 1 else 0) +
              (if b then 1 else 0)
            downvotes := m.downvotes -
              (if (dictGet? uid m.voters).getD 0 = -1 then 1 else 0) +
              (if b then 0 else 1)
            voters := dictInsert uid (if b then 1 else -1) m.voters } : Meme) = m := by
      cases b <;> simp at hx <;> simp [hv, hx]
    rw [hm2]
    exact dictInsert_eq_self hm
  · intro m uid v hinv hvote hv1
    have hpos1 : v = 1 → 1 ≤ countVotes 1 m.voters := fun e => countVotes_pos (e ▸ hvote)
    have hpos2 : v = -1 → 1 ≤ countVotes (-1) m.voters := fun e => countVotes_pos (e ▸ hvote)
    obtain ⟨hu, hd⟩ := hinv
    rw [memeLB_add_vote_eq, memeLB_remove_vote_of_vote hvote]
    refine ⟨?_, ?_, ?_⟩
    · rcases hv1 with rfl | rfl <;> simp_all
    · rcases hv1 with rfl | rfl <;> simp_all
    · intro w
      by_cases hw : w = uid
      · subst hw
        simp [dictGet?_dictInsert_self, hvote]
      · simp [dictGet?_dictInsert_ne hw, dictGet?_dictErase_ne hw]

/-- Witness instantiating both halves of C4 on `voteStore` / `votedMeme`. -/
theorem same_polarity_vote_idempotent_witness :
    (dictGet? "m" voteStore = some votedMeme ∧
      dictGet? "u" votedMeme.voters = some (if true then 1 else -1) ∧
      (ToolsLB.update_vote voteStore "m" "u" true).1 = voteStore) ∧
    (memeInv votedMeme ∧ dictGet? "u" votedMeme.voters = some 1 ∧
      (MemeLB.add_vote votedMeme "u" 1).upvotes = votedMeme.upvotes ∧
      (MemeLB.add_vote votedMeme "u" 1).downvotes = votedMeme.downvotes ∧
      dictGet? "u" (MemeLB.add_vote votedMeme "u" 1).voters =
        dictGet? "u" votedMeme.voters) :=
  ⟨⟨by decide, by decide,
    same_polarity_vote_idempotent.1 voteStore "m" "u" true votedMeme (by decide) (by decide)⟩,
   ⟨by decide, by decide,
    (same_polarity_vote_idempotent.2 votedMeme "u" 1 (by decide) (by decide) (Or.inl rfl)).1,
    (same_polarity_vote_idempotent.2 votedMeme "u" 1 (by decide) (by decide) (Or.inl rfl)).2.1,
    (same_polarity_vote_idempotent.2 votedMeme "u" 1 (by decide) (by decide) (Or.inl rfl)).2.2 "u"⟩⟩

/-- C10: a reaction-removed event whose emoji polarity differs from the
voter's recorded vote, or whose voter has no recorded vote, leaves the store
(hence the item's upvotes, downvotes and voter map) unchanged. -/
theorem reaction_removed_mismatch_noop (s : Store) (mid uid emoji : String)
    (bot : Bool) (m : Meme) (hm : dictGet? mid s = some m)
    (h1 : emoji = "👍" → dictGet? uid m.voters ≠ some 1)
    (h2 : emoji = "👎" → dictGet? uid m.voters ≠ some (-1)) :
    MemeLB.process_reaction s mid uid emoji false bot = s := by
  unfold MemeLB.process_reaction
  cases bot with
  | true => simp
  | false =>
    have c1 : ¬(emoji = "👍" ∧ dictGet? uid m.voters = some 1) :=
      fun hc => h1 hc.1 hc.2
    have c2 : ¬(emoji = "👎" ∧ dictGet? uid m.voters = some (-1)) :=
      fun hc => h2 hc.1 hc.2
    simp [hm, c1, c2]

/-- Witness instantiating C10 on `negStore`: removing a 👎 reaction while
the recorded vote is +1. -/
theorem reaction_removed_mismatch_noop_witness :
    dictGet? "m" negStore = some negMeme ∧
      MemeLB.process_reaction negStore "m" "u" "👎" false false = negStore :=
  ⟨by decide,
   reaction_removed_mismatch_noop negStore "m" "u" "👎" false negMeme
     (by decide) (by decide) (by decide)⟩

/-- C2 counterexample: from the state the claim explicitly includes — a
recorded upvote while the cached counter is already zero — `remove_vote` of
src/tools/leaderboard.py drives `upvotes` to -1, so it is not floored at
zero and an operation can make a counter negative. -/
theorem remove_vote_goes_negative :
    (dictGet? "m" (ToolsLB.remove_vote negStore "m" "u").1).map Meme.upvotes =
      some (-1) := by
  decide

/-- C2 (amended): `_remove_vote` of src/meme_leaderboard.py clamps the
decrement at zero, so from any record with non-negative counters it never
produces a negative counter, in every state (inconsistent voter maps and
duplicated remove events included); `remove_vote` of src/tools/leaderboard.py
decrements without a floor, and keeps counters non-negative only from stores
whose cached counts agree with their voter maps. -/
theorem remove_vote_never_negative_amended :
    (∀ (m : Meme) (uid : String),
      (0 ≤ m.upvotes → 0 ≤ (MemeLB.remove_vote m uid).upvotes) ∧
      (0 ≤ m.downvotes → 0 ≤ (MemeLB.remove_vote m uid).downvotes)) ∧
    (∀ (s : Store) (mid uid : String), storeInv s →
      ∀ (k : String) (m2 : Meme), (k, m2) ∈ (ToolsLB.remove_vote s mid uid).1 →
        0 ≤ m2.upvotes ∧ 0 ≤ m2.downvotes) := by
  constructor
  · intro m uid
    cases hv : dictGet? uid m.voters with
    | none =>
      rw [memeLB_remove_vote_of_no_vote hv]
      exact ⟨id, id⟩
    | some w =>
      rw [memeLB_remove_vote_of_vote hv]
      constructor <;> intro h0 <;>
        by_cases hw1 : w = 1 <;> by_cases hw2 : w = -1 <;> simp [hw1, hw2] <;> omega
  · intro s mid uid hs k m2 hmem
    obtain ⟨hu, hd⟩ := storeInv_remove_vote s mid uid hs (k, m2) hmem
    exact ⟨hu ▸ Int.natCast_nonneg _, hd ▸ Int.natCast_nonneg _⟩

/-- Witness instantiating C2 (amended): the clamp fires on `negMeme`
(yielding 0, not -1), and the tools variant keeps the consistent
`voteStore` non-negative. -/
theorem remove_vote_never_negative_amended_witness :
    ((0 : Int) ≤ negMeme.upvotes → (0 : Int) ≤ (MemeLB.remove_vote negMeme "u").upvotes) ∧
      (storeInv voteStore ∧
        (("m", { votedMeme with upvotes := 0, voters := [] }) ∈
            (ToolsLB.remove_vote voteStore "m" "u").1 →
          (0 : Int) ≤ (Meme.upvotes { votedMeme with upvotes := 0, voters := [] }) ∧
          (0 : Int) ≤ (Meme.downvotes { votedMeme with upvotes := 0, voters := [] }))) :=
  ⟨(remove_vote_never_negative_amended.1 negMeme "u").1,
   ⟨by decide,
    remove_vote_never_negative_amended.2 voteStore "m" "u" (by decide) "m" _⟩⟩

/-- C6 counterexample: in the net-score mode of `get_top_memes`
(src/tools/leaderboard.py), two items tied on net score are returned in
insertion order even though the later one has more upvotes — the output is
not sorted by (net score desc, upvotes desc), so there is no upvotes
tie-break. -/
theorem top_items_tiebreak_counterexample :
    ToolsLB.get_top_memes tieStore 10 "net" = [memeA, memeB] ∧
      ¬ (ToolsLB.get_top_memes tieStore 10 "net").Pairwise
          (fun a b => MemeLB.lexLe (MemeLB.netKey b) (MemeLB.netKey a) = true) := by
  have he : ToolsLB.get_top_memes tieStore 10 "net" = [memeA, memeB] := by
    simp [ToolsLB.get_top_memes, tieStore, List.mergeSort, ToolsLB.byNetDesc,
      memeA, memeB, show ("net" : String) ≠ "upvotes" by decide]
  refine ⟨he, ?_⟩
  rw [he]
  decide

/-- C6 (amended): both `get_top_memes` return at most `limit` items, sorted
descending by the chosen key — raw upvotes or plain net score in
src/tools/leaderboard.py (the net mode has no upvotes tie-break), the
(net score, upvotes) pair in src/meme_leaderboard.py — and the sorts are
stable: for every key value, the sub-run of items carrying that value equals
their subsequence of the store in insertion (earliest-created-first) order. -/
theorem top_items_sorted_amended :
    (∀ (s : Store) (limit : Nat) (sort_by : String),
      (ToolsLB.get_top_memes s limit sort_by).length ≤ limit) ∧
    (∀ (s : Store) (limit : Nat),
      (ToolsLB.get_top_memes s limit "upvotes").Pairwise
        (fun a b => b.upvotes ≤ a.upvotes)) ∧
    (∀ (s : Store) (limit : Nat) (sort_by : String), sort_by ≠ "upvotes" →
      (ToolsLB.get_top_memes s limit sort_by).Pairwise
        (fun a b => b.upvotes - b.downvotes ≤ a.upvotes - a.downvotes)) ∧
    (∀ (s : Store) (v : Int),
      ((s.map Prod.snd).mergeSort ToolsLB.byUpvotesDesc).filter
          (fun m => decide (m.upvotes = v)) =
        (s.map Prod.snd).filter (fun m => decide (m.upvotes = v))) ∧
    (∀ (s : Store) (v : Int),
      ((s.map Prod.snd).mergeSort ToolsLB.byNetDesc).filter
          (fun m => decide (m.upvotes - m.downvotes = v)) =
        (s.map Prod.snd).filter (fun m => decide (m.upvotes - m.downvotes = v))) ∧
    (∀ (s : Store) (limit : Nat),
      (MemeLB.get_top_memes s limit).length ≤ limit) ∧
    (∀ (s : Store) (limit : Nat),
      (MemeLB.get_top_memes s limit).Pairwise
        (fun a b => MemeLB.lexLe (MemeLB.netKey b) (MemeLB.netKey a) = true)) ∧
    (∀ (s : Store) (q : Int × Int),
      ((s.map Prod.snd).mergeSort MemeLB.byNetUpDesc).filter
          (fun m => decide (MemeLB.netKey m = q)) =
        (s.map Prod.snd).filter (fun m => decide (MemeLB.netKey m = q))) := by
  refine ⟨?_, ?_, ?_, ?_, ?_, ?_, ?_, ?_⟩
  · intro s limit sort_by
    exact List.length_take_le limit _
  · intro s limit
    have hs := List.sorted_mergeSort byUpvotesDesc_trans byUpvotesDesc_total (s.map Prod.snd)
    have hp : ((s.map Prod.snd).mergeSort ToolsLB.byUpvotesDesc).Pairwise
        (fun a b : Meme => b.upvotes ≤ a.upvotes) :=
      hs.imp fun h => by simpa [ToolsLB.byUpvotesDesc] using h
    have : ToolsLB.get_top_memes s limit "upvotes" =
        ((s.map Prod.snd).mergeSort ToolsLB.byUpvotesDesc).take limit := by
      simp [ToolsLB.get_top_memes]
    rw [this]
    exact hp.sublist (List.take_sublist _ _)
  · intro s limit sort_by hsb
    have hs := List.sorted_mergeSort byNetDesc_trans byNetDesc_total (s.map Prod.snd)
    have hp : ((s.map Prod.snd).mergeSort ToolsLB.byNetDesc).Pairwise
        (fun a b : Meme => b.upvotes - b.downvotes ≤ a.upvotes - a.downvotes) :=
      hs.imp fun h => by simpa [ToolsLB.byNetDesc] using h
    have : ToolsLB.get_top_memes s limit sort_by =
        ((s.map Prod.snd).mergeSort ToolsLB.byNetDesc).take limit := by
      simp [ToolsLB.get_top_memes, hsb]
    rw [this]
    exact hp.sublist (List.take_sublist _ _)
  · intro s v
    apply mergeSort_filter_stable byUpvotesDesc_trans byUpvotesDesc_total
    intro a b ha hb
    simp only [decide_eq_true_eq] at ha hb
    simp [ToolsLB.byUpvotesDesc, ha, hb]
  · intro s v
    apply mergeSort_filter_stable byNetDesc_trans byNetDesc_total
    intro a b ha hb
    simp only [decide_eq_true_eq] at ha hb
    simp [ToolsLB.byNetDesc, ha, hb]
  · intro s limit
    exact List.length_take_le limit _
  · intro s limit
    have hs := List.sorted_mergeSort byNetUpDesc_trans byNetUpDesc_total (s.map Prod.snd)
    have hp : ((s.map Prod.snd).mergeSort MemeLB.byNetUpDesc).Pairwise
        (fun a b : Meme => MemeLB.lexLe (MemeLB.netKey b) (MemeLB.netKey a) = true) :=
      hs.imp fun h => h
    exact hp.sublist (List.take_sublist _ _)
  · intro s q
    apply mergeSort_filter_stable byNetUpDesc_trans byNetUpDesc_total
    intro a b ha hb
    simp only [decide_eq_true_eq] at ha hb
    unfold MemeLB.byNetUpDesc
    rw [ha, hb]
    exact lexLe_refl q

/-- Witness instantiating the hypothesis-bearing conjunct of C6 (amended)
on `tieStore` in net-score mode. -/
theorem top_items_sorted_amended_witness :
    ("net" : String) ≠ "upvotes" ∧
      (ToolsLB.get_top_memes tieStore 10 "net").Pairwise
        (fun a b => b.upvotes - b.downvotes ≤ a.upvotes - a.downvotes) :=
  ⟨by decide, top_items_sorted_amended.2.2.1 tieStore 10 "net" (by decide)⟩

/-- C8 counterexample: `get_user_stats` of src/tools/leaderboard.py ranks
the author's items by raw upvotes, so the first returned top meme (`statMemeA`)
is not the author's best item under the (net score, upvotes) ordering:
`statMemeB`, also by this author and in the store, has a strictly greater
(net score, upvotes) key. -/
theorem author_stats_best_item_counterexample :
    (ToolsLB.get_user_stats statStore "au").top_memes.head? = some statMemeA ∧
      ("b", statMemeB) ∈ statStore ∧ statMemeB.author_id = "au" ∧
      MemeLB.lexLt (MemeLB.netKey statMemeA) (MemeLB.netKey statMemeB) = true := by
  refine ⟨?_, by decide, by decide, by decide⟩
  simp [ToolsLB.get_user_stats, statStore, statMemeA, statMemeB,
    ToolsLB.byUpvotesDesc, List.mergeSort]

/-- C8 (amended): `get_user_stats` of src/meme_leaderboard.py returns the
author's item count, summed upvotes and downvotes, net score equal to their
difference, and a best item that belongs to the author and is maximal under
the (net score, upvotes) ordering (present whenever the author has an item);
for an author with no items it returns all-zero statistics with no best
item, and it is a total function.  The variant in src/tools/leaderboard.py
returns the same count/sum/net fields but, instead of a single best item
under (net score, upvotes), up to three of the author's items sorted
descending by raw upvotes (empty for an author with no items). -/
theorem author_stats_amended :
    (∀ (s : Store) (uid : String),
      (MemeLB.get_user_stats s uid).memes_created =
        (s.countP (fun p => decide (p.2.author_id = uid)) : Int) ∧
      (MemeLB.get_user_stats s uid).total_upvotes =
        ((s.filter (fun p => decide (p.2.author_id = uid))).map (fun p => p.2.upvotes)).sum ∧
      (MemeLB.get_user_stats s uid).total_downvotes =
        ((s.filter (fun p => decide (p.2.author_id = uid))).map (fun p => p.2.downvotes)).sum ∧
      (MemeLB.get_user_stats s uid).net_popularity =
        (MemeLB.get_user_stats s uid).total_upvotes -
          (MemeLB.get_user_stats s uid).total_downvotes ∧
      ((∀ p ∈ s, p.2.author_id ≠ uid) →
        MemeLB.get_user_stats s uid =
          { memes_created := 0, total_upvotes := 0, total_downvotes := 0,
            net_popularity := 0, most_popular_meme := none }) ∧
      ((∃ p ∈ s, p.2.author_id = uid) →
        ∃ b, (MemeLB.get_user_stats s uid).most_popular_meme = some b) ∧
      (∀ b : Meme, (MemeLB.get_user_stats s uid).most_popular_meme = some b →
        (∃ k, (k, b) ∈ s) ∧ b.author_id = uid ∧
          ∀ (k : String) (m : Meme), (k, m) ∈ s → m.author_id = uid →
            MemeLB.lexLe (MemeLB.netKey m) (MemeLB.netKey b) = true)) ∧
    (∀ (s : Store) (uid : String),
      (ToolsLB.get_user_stats s uid).total_memes =
        (s.countP (fun p => decide (p.2.author_id = uid)) : Int) ∧
      (ToolsLB.get_user_stats s uid).total_upvotes =
        ((s.filter (fun p => decide (p.2.author_id = uid))).map (fun p => p.2.upvotes)).sum ∧
      (ToolsLB.get_user_stats s uid).total_downvotes =
        ((s.filter (fun p => decide (p.2.author_id = uid))).map (fun p => p.2.downvotes)).sum ∧
      (ToolsLB.get_user_stats s uid).net_score =
        (ToolsLB.get_user_stats s uid).total_upvotes -
          (ToolsLB.get_user_stats s uid).total_downvotes ∧
      (ToolsLB.get_user_stats s uid).top_memes.length ≤ 3 ∧
      (ToolsLB.get_user_stats s uid).top_memes.Pairwise
        (fun a b => b.upvotes ≤ a.upvotes) ∧
      (∀ m ∈ (ToolsLB.get_user_stats s uid).top_memes,
        (∃ k, (k, m) ∈ s) ∧ m.author_id = uid) ∧
      ((∀ p ∈ s, p.2.author_id ≠ uid) →
        ToolsLB.get_user_stats s uid =
          { user_id := uid, total_memes := 0, total_upvotes := 0,
            total_downvotes := 0, net_score := 0, top_memes := [] })) := by
  have husers : ∀ (s : Store) (uid : String),
      (s.map Prod.snd).filter (fun m => decide (m.author_id = uid)) =
        (s.filter (fun p => decide (p.2.author_id = uid))).map Prod.snd := by
    intro s uid
    rw [List.filter_map]
    rfl
  constructor
  · intro s uid
    refine ⟨?_, ?_, ?_, rfl, ?_, ?_, ?_⟩
    · simp only [MemeLB.get_user_stats, husers]
      rw [List.length_map, ← List.countP_eq_length_filter]
    · simp only [MemeLB.get_user_stats, husers]
      rw [List.map_map]
      rfl
    · simp only [MemeLB.get_user_stats, husers]
      rw [List.map_map]
      rfl
    · intro hnone
      have hfil : (s.map Prod.snd).filter (fun m => decide (m.author_id = uid)) = [] := by
        apply List.filter_eq_nil_iff.mpr
        intro a ha
        obtain ⟨p, hp, hpa⟩ := List.mem_map.mp ha
        simpa [hpa] using hnone p hp
      simp [MemeLB.get_user_stats, hfil, MemeLB.pyMax]
    · rintro ⟨p, hp, hpa⟩
      have hmem : p.2 ∈ (s.map Prod.snd).filter (fun m => decide (m.author_id = uid)) :=
        List.mem_filter.mpr ⟨List.mem_map.mpr ⟨p, hp, rfl⟩, by simp [hpa]⟩
      have hne : (s.map Prod.snd).filter (fun m => decide (m.author_id = uid)) ≠ [] := by
        intro hnil
        rw [hnil] at hmem
        simp at hmem
      obtain ⟨b, hb⟩ := @pyMax_ne_nil MemeLB.netKey _ hne
      exact ⟨b, by simpa [MemeLB.get_user_stats] using hb⟩
    · intro b hb
      have hpy : MemeLB.pyMax MemeLB.netKey
          ((s.map Prod.snd).filter (fun m => decide (m.author_id = uid))) = some b := by
        simpa [MemeLB.get_user_stats] using hb
      obtain ⟨hmem, hmax⟩ := pyMax_spec hpy
      obtain ⟨hmm, hauth⟩ := List.mem_filter.mp hmem
      obtain ⟨pr, hpr, heq⟩ := List.mem_map.mp hmm
      refine ⟨⟨pr.1, ?_⟩, by simpa using hauth, ?_⟩
      · rw [← heq]
        exact hpr
      · intro k m hm hma
        exact hmax m (List.mem_filter.mpr
          ⟨List.mem_map.mpr ⟨(k, m), hm, rfl⟩, by simp [hma]⟩)
  · intro s uid
    refine ⟨?_, ?_, ?_, rfl, ?_, ?_, ?_, ?_⟩
    · simp only [ToolsLB.get_user_stats, husers]
      rw [List.length_map, ← List.countP_eq_length_filter]
    · simp only [ToolsLB.get_user_stats, husers]
      rw [List.map_map]
      rfl
    · simp only [ToolsLB.get_user_stats, husers]
      rw [List.map_map]
      rfl
    · simp only [ToolsLB.get_user_stats]
      exact List.length_take_le 3 _
    · have hs := List.sorted_mergeSort byUpvotesDesc_trans byUpvotesDesc_total
        ((s.map Prod.snd).filter (fun m => decide (m.author_id = uid)))
      have hp : (((s.map Prod.snd).filter (fun m => decide (m.author_id = uid))).mergeSort
          ToolsLB.byUpvotesDesc).Pairwise (fun a b : Meme => b.upvotes ≤ a.upvotes) :=
        hs.imp fun h => by simpa [ToolsLB.byUpvotesDesc] using h
      simp only [ToolsLB.get_user_stats]
      exact hp.sublist (List.take_sublist _ _)
    · intro m hm
      simp only [ToolsLB.get_user_stats] at hm
      have hm1 : m ∈ ((s.map Prod.snd).filter
          (fun m => decide (m.author_id = uid))).mergeSort ToolsLB.byUpvotesDesc :=
        (List.take_sublist 3 _).subset hm
      have hm2 : m ∈ (s.map Prod.snd).filter (fun m => decide (m.author_id = uid)) :=
        (List.mergeSort_perm _ ToolsLB.byUpvotesDesc).mem_iff.mp hm1
      obtain ⟨hmm, hauth⟩ := List.mem_filter.mp hm2
      obtain ⟨pr, hpr, heq⟩ := List.mem_map.mp hmm
      refine ⟨⟨pr.1, ?_⟩, by simpa using hauth⟩
      rw [← heq]
      exact hpr
    · intro hnone
      have hfil : (s.map Prod.snd).filter (fun m => decide (m.author_id = uid)) = [] := by
        apply List.filter_eq_nil_iff.mpr
        intro a ha
        obtain ⟨p, hp, hpa⟩ := List.mem_map.mp ha
        simpa [hpa] using hnone p hp
      simp [ToolsLB.get_user_stats, hfil, List.mergeSort]

/-- Witness instantiating the hypothesis-bearing parts of C8 (amended): the
zero-stats case on an absent author and the best-item case on `statStore`,
whose best item under (net, upvotes) is `statMemeB`. -/
theorem author_stats_amended_witness :
    (MemeLB.get_user_stats statStore "alice" =
      { memes_created := 0, total_upvotes := 0, total_downvotes := 0,
        net_popularity := 0, most_popular_meme := none }) ∧
    ((MemeLB.get_user_stats statStore "au").most_popular_meme = some statMemeB ∧
      ((∃ k, (k, statMemeB) ∈ statStore) ∧ statMemeB.author_id = "au" ∧
        ∀ (k : String) (m : Meme), (k, m) ∈ statStore → m.author_id = "au" →
          MemeLB.lexLe (MemeLB.netKey m) (MemeLB.netKey statMemeB) = true)) :=
  ⟨(author_stats_amended.1 statStore "alice").2.2.2.2.1 (by decide),
   ⟨by decide,
    (author_stats_amended.1 statStore "au").2.2.2.2.2.2 statMemeB (by decide)⟩⟩

end MemeRepo
